import Mathlib

/-!
# Slide controller of `websaite/static/slider.js`

A shallow embedding of the carousel script.  The closure state of the script
(`index`, `timer`, the `slides` and `dots` arrays) together with the part of
the browser it talks to (class lists of the elements, the table of scheduled
interval timers) is one record, `World`; every function of the script is a
function on that record, and every host event is a constructor of `Event`.

Numbers.  `index` is a JavaScript number.  All values it can take in this
script are integers or `NaN` (the latter only from a remainder by zero), so
`JSNum` has exactly these two shapes.  Negative zero is identified with zero:
the script only ever compares `index` with `===` and adds to it, and neither
tells the two apart.

Arithmetic.  The numbers of the script are binary64 values.  `JSNum.add` and
`JSNum.sub` are the exact sum and difference, which binary64 gives whenever the
exact result is at most `2^53` in magnitude (`addDouble_eq_add`); the
remainder of binary64 is exact throughout.  Every sum a running controller
forms has an index of `[0, N-1]`, `1` or the array length `N` as operands, so it
is exact.  Only `go` called with an arbitrary argument can leave that range, and
the statement about it carries the bound; `JSNum.addDouble` is the rounded sum
for comparison.

Timers.  `setInterval` and `clearInterval` belong to the browser.  They are
modelled by a table of scheduled timers, each with its handle and the time left
until it fires, and a counter from which fresh handles, all positive, are drawn.
-/

namespace Slider

/-! ## JavaScript numbers -/

/-- The values a number of the script can take: an integer or `NaN`. -/
inductive JSNum where
  | num (z : Int)
  | nan
  deriving DecidableEq, Repr

namespace JSNum

/-- JavaScript `a + b` where binary64 adds exactly: the exact sum.  That is the
sum of the script whenever it is at most `2^53` in magnitude. -/
def add : JSNum → JSNum → JSNum
  | num a, num b => num (a + b)
  | _, _ => nan

/-- The distance between neighbouring binary64 values at magnitude `m`: `1` below
`2^53`, doubling with every further power of two.  The first argument bounds
the number of halvings and is taken to be `m` itself. -/
def spacing : Nat → Nat → Nat
  | 0, _ => 1
  | fuel + 1, m => if m < 2 ^ 53 then 1 else 2 * spacing fuel (m / 2)

/-- The binary64 value nearest to the integer `z`, a tie going to the value with
the even significand.  (Overflow sets in at `2^1024`, out of reach of a sum
with an array length.) -/
def round64 (z : Int) : Int :=
  let u : Int := (spacing z.natAbs z.natAbs : Nat)
  let q := z / u
  let r := z % u
  if 2 * r < u then q * u
  else if u < 2 * r then (q + 1) * u
  else if q % 2 = 0 then q * u else (q + 1) * u

/-- JavaScript `a + b` as binary64 computes it on integers: the exact sum,
rounded to the nearest binary64 value. -/
def addDouble : JSNum → JSNum → JSNum
  | num a, num b => num (round64 (a + b))
  | _, _ => nan

/-- JavaScript `a - b`. -/
def sub : JSNum → JSNum → JSNum
  | num a, num b => num (a - b)
  | _, _ => nan

/-- JavaScript `a % b`: the remainder takes the sign of the dividend, and a zero
divisor gives `NaN`. -/
def rem : JSNum → JSNum → JSNum
  | num a, num b => if b = 0 then nan else num (Int.tmod a b)
  | _, _ => nan

/-- JavaScript `i === x` for an array position `i`. -/
def strictEq (i : Nat) : JSNum → Bool
  | num z => decide ((i : Int) = z)
  | nan => false

/-- JavaScript `x < 0`. -/
def ltZero : JSNum → Bool
  | num z => decide (z < 0)
  | nan => false

end JSNum

/-! ## Elements and their class lists -/

/-- A slide element: only its class list matters to the script. -/
structure Element where
  classes : List String
  deriving DecidableEq, Repr

/-- An indicator button built by the script: class list, `type`, `aria-label`
and the position its click listener passes to `go`. -/
structure Dot where
  classes : List String
  type : String
  ariaLabel : String
  target : Nat
  deriving DecidableEq, Repr

/-- The method `classList.contains(token)`. -/
def contains (classes : List String) (token : String) : Bool :=
  decide (token ∈ classes)

/-- The method `classList.toggle(token, force)`: with `force` true the token is
added unless present, with `force` false it is removed. -/
def toggle (classes : List String) (token : String) (force : Bool) : List String :=
  if force then
    (if contains classes token then classes else classes ++ [token])
  else
    classes.filter (fun c => decide (c ≠ token))

/-- The call `slides.findIndex(s => s.classList.contains("active"))`, counting
from position `i`: the first position that matches, or `-1`. -/
def findIndexFrom : Nat → List Element → Int
  | _, [] => -1
  | i, s :: rest => if contains s.classes "active" then (i : Int) else findIndexFrom (i + 1) rest

/-- The call `slides.findIndex(...)` of line 10. -/
def findIndex (slides : List Element) : Int :=
  findIndexFrom 0 slides

/-! ## The host page -/

/-- What `document.getElementById("slider")` holds when it is present. -/
structure Container where
  slides : List Element
  hasPrev : Bool
  hasNext : Bool
  /-- Children of the `.dots` element, `none` when there is no such element. -/
  dotsWrap : Option (List Dot)
  deriving Repr

/-- The page the script is loaded into. -/
structure Host where
  container : Option Container
  deriving Repr

/-! ## Closure state and timer table -/

/-- A scheduled interval timer: its handle and the time until it fires next. -/
structure Timer where
  handle : Nat
  remaining : Nat
  deriving DecidableEq, Repr

/-- The state of a running controller and of the timer table it acts on. -/
structure World where
  slides : List Element
  dots : List Dot
  hasPrev : Bool
  hasNext : Bool
  index : JSNum
  /-- The variable `timer`: `none` is `null`. -/
  timer : Option Nat
  /-- The last handle the browser gave out. -/
  lastHandle : Nat
  /-- The interval timers currently scheduled. -/
  scheduled : List Timer
  deriving DecidableEq, Repr

/-- The constant `intervalMs`. -/
def intervalMs : Nat := 3500

/-- Truthiness of the variable `timer`: `null` and `0` are falsy. -/
def truthy : Option Nat → Bool
  | some h => decide (h ≠ 0)
  | none => false

/-- The browser call `setInterval(cb, ms)`: a fresh positive handle is returned
and the timer is scheduled with a full interval to run. -/
def setInterval (ms : Nat) (w : World) : Nat × World :=
  (w.lastHandle + 1,
    { w with lastHandle := w.lastHandle + 1,
             scheduled := w.scheduled ++ [⟨w.lastHandle + 1, ms⟩] })

/-- The browser call `clearInterval(h)`. -/
def clearInterval (h : Nat) (w : World) : World :=
  { w with scheduled := w.scheduled.filter (fun t => decide (t.handle ≠ h)) }

/-! ## The functions of the script -/

/-- The loop `slides.forEach((s, i) => s.classList.toggle("active", i === index))`,
counting from position `i`. -/
def toggleSlides (index : JSNum) : Nat → List Element → List Element
  | _, [] => []
  | i, s :: rest =>
    { s with classes := toggle s.classes "active" (JSNum.strictEq i index) }
      :: toggleSlides index (i + 1) rest

/-- The loop `dots.forEach((d, i) => d.classList.toggle("active", i === index))`,
counting from position `i`. -/
def toggleDots (index : JSNum) : Nat → List Dot → List Dot
  | _, [] => []
  | i, d :: rest =>
    { d with classes := toggle d.classes "active" (JSNum.strictEq i index) }
      :: toggleDots index (i + 1) rest

/-- The function `render` (lines 25-28). -/
def render (w : World) : World :=
  { w with slides := toggleSlides w.index 0 w.slides,
           dots := toggleDots w.index 0 w.dots }

/-- The function `start` (lines 51-54). -/
def start (w : World) : World :=
  if truthy w.timer then w
  else
    let r := setInterval intervalMs w
    { r.2 with timer := some r.1 }

/-- The function `stop` (lines 56-60). -/
def stop (w : World) : World :=
  match w.timer with
  | some h => if h ≠ 0 then { clearInterval h w with timer := none } else w
  | none => w

/-- The function `restart` (lines 62-65). -/
def restart (w : World) : World :=
  start (stop w)

/-- The function `go` (lines 30-34). -/
def go (nextIndex : JSNum) (userAction : Bool) (w : World) : World :=
  let len := JSNum.num (w.slides.length : Int)
  let w1 := { w with index := JSNum.rem (JSNum.add nextIndex len) len }
  let w2 := render w1
  if userAction then restart w2 else w2

/-- The function `next` (lines 36-38). -/
def next (userAction : Bool) (w : World) : World :=
  go (JSNum.add w.index (JSNum.num 1)) userAction w

/-- The function `prev` (lines 40-42). -/
def prev (userAction : Bool) (w : World) : World :=
  go (JSNum.sub w.index (JSNum.num 1)) userAction w

/-- The indicator built for slide `i` by the callback of `slides.map` (lines 15-23). -/
def mkDot (index : JSNum) (i : Nat) : Dot :=
  { classes := if JSNum.strictEq i index then ["dot", "active"] else ["dot"],
    type := "button",
    ariaLabel := "Go to slide " ++ toString (i + 1),
    target := i }

/-- The call `slides.map((_, i) => ...)` of line 15, counting from position `i`. -/
def buildDots (index : JSNum) : Nat → List Element → List Dot
  | _, [] => []
  | i, _ :: rest => mkDot index i :: buildDots index (i + 1) rest

/-- How running the script on a page ends. -/
inductive Outcome where
  /-- Line 3 returned: nothing was touched. -/
  | skipped
  /-- Line 14 raised a `TypeError`: `dotsWrap` is `null`. -/
  | threw
  /-- The script ran to its end and left a controller behind. -/
  | running (w : World)
  deriving DecidableEq, Repr

/-- The starting value of `index` (lines 10-11). -/
def startIndex (slides : List Element) : JSNum :=
  let i := JSNum.num (findIndex slides)
  if JSNum.ltZero i then JSNum.num 0 else i

/-- The whole script body (lines 1-73), run on a page whose timer table is empty
and whose last handle given out is `lastHandle`. -/
def init (host : Host) (lastHandle : Nat) : Outcome :=
  match host.container with
  | none => Outcome.skipped
  | some c =>
    let index := startIndex c.slides
    match c.dotsWrap with
    | none => Outcome.threw
    | some _ =>
      let dots := buildDots index 0 c.slides
      let w : World :=
        { slides := c.slides, dots := dots, hasPrev := c.hasPrev, hasNext := c.hasNext,
          index := index, timer := none, lastHandle := lastHandle, scheduled := [] }
      Outcome.running (start (render w))

/-! ## Events -/

/-- The events the host delivers to the controller, and direct calls of the
three autoplay functions. -/
inductive Event where
  /-- A click on the indicator at position `i`. -/
  | dotClick (i : Nat)
  | prevClick
  | nextClick
  /-- The interval timer with handle `h` fires. -/
  | timerFire (h : Nat)
  | mouseEnter
  | mouseLeave
  /-- Time passes without reaching the next firing. -/
  | elapse (ms : Nat)
  | callStart
  | callStop
  | callRestart
  deriving DecidableEq, Repr

/-- The firing of timer `h`: when it is scheduled its callback `() => next(false)`
runs and its countdown starts over. -/
def fire (h : Nat) (w : World) : World :=
  if w.scheduled.any (fun t => decide (t.handle = h)) then
    let w1 := next false w
    { w1 with scheduled :=
        w1.scheduled.map (fun t => if t.handle = h then { t with remaining := intervalMs } else t) }
  else w

/-- The passing of `ms` milliseconds, at most up to the next firing. -/
def elapse (ms : Nat) (w : World) : World :=
  { w with scheduled := w.scheduled.map (fun t => { t with remaining := t.remaining - ms }) }

/-- One event handled to completion. -/
def step (w : World) : Event → World
  | Event.dotClick i =>
    match w.dots[i]? with
    | some d => go (JSNum.num (d.target : Int)) true w
    | none => w
  | Event.prevClick => if w.hasPrev then prev true w else w
  | Event.nextClick => if w.hasNext then next true w else w
  | Event.timerFire h => fire h w
  | Event.mouseEnter => stop w
  | Event.mouseLeave => start w
  | Event.elapse ms => elapse ms w
  | Event.callStart => start w
  | Event.callStop => stop w
  | Event.callRestart => restart w

/-- A sequence of events handled in order. -/
def run (w : World) (es : List Event) : World :=
  es.foldl step w

/-! ## Observations -/

/-- Positions of the slides that carry the `active` marker. -/
def activeSlides (w : World) : List Nat :=
  (List.range w.slides.length).filter
    (fun i => match w.slides[i]? with
      | some s => contains s.classes "active"
      | none => false)

/-- Positions of the indicators that carry the `active` marker. -/
def activeDots (w : World) : List Nat :=
  (List.range w.dots.length).filter
    (fun i => match w.dots[i]? with
      | some d => contains d.classes "active"
      | none => false)

/-- The formula of the specification for the index after `goTo(k, _)`,
`((k % N) + N) % N` with the truncating remainder. -/
def wrapSpec (k : Int) (n : Nat) : Int :=
  Int.tmod (Int.tmod k (n : Int) + (n : Int)) (n : Int)

/-- The right-hand side of line 31, `(nextIndex + slides.length) % slides.length`,
with the sum as binary64 computes it. -/
def wrapDouble (k : Int) (n : Nat) : JSNum :=
  JSNum.rem (JSNum.addDouble (JSNum.num k) (JSNum.num (n : Int))) (JSNum.num (n : Int))

/-- A small page: four slides, the second one marked active, both buttons and
an empty indicator container. -/
def demoContainer : Container :=
  { slides := [⟨["slide"]⟩, ⟨["slide", "active"]⟩, ⟨["slide"]⟩, ⟨["slide"]⟩],
    hasPrev := true, hasNext := true, dotsWrap := some [] }

/-- The controller the script leaves on `demoContainer`. -/
def demoWorld : World :=
  { slides := [⟨["slide"]⟩, ⟨["slide", "active"]⟩, ⟨["slide"]⟩, ⟨["slide"]⟩],
    dots := [⟨["dot"], "button", "Go to slide 1", 0⟩, ⟨["dot", "active"], "button", "Go to slide 2", 1⟩,
             ⟨["dot"], "button", "Go to slide 3", 2⟩, ⟨["dot"], "button", "Go to slide 4", 3⟩],
    hasPrev := true, hasNext := true, index := JSNum.num 1,
    timer := some 1, lastHandle := 1, scheduled := [⟨1, 3500⟩] }

/-- A page whose container holds no slide at all. -/
def emptyContainer : Container :=
  { slides := [], hasPrev := true, hasNext := true, dotsWrap := some [] }

/-- The controller the script leaves on `emptyContainer`. -/
def emptyWorld : World :=
  { slides := [], dots := [], hasPrev := true, hasNext := true, index := JSNum.num 0,
    timer := some 1, lastHandle := 1, scheduled := [⟨1, 3500⟩] }

/-- A page of five slides, none marked active, with both buttons. -/
def fiveContainer : Container :=
  { slides := [⟨["slide"]⟩, ⟨["slide"]⟩, ⟨["slide"]⟩, ⟨["slide"]⟩, ⟨["slide"]⟩],
    hasPrev := true, hasNext := true, dotsWrap := some [] }

/-- The controller the script leaves on `fiveContainer`. -/
def fiveWorld : World :=
  { slides := [⟨["slide", "active"]⟩, ⟨["slide"]⟩, ⟨["slide"]⟩, ⟨["slide"]⟩, ⟨["slide"]⟩],
    dots := [⟨["dot", "active"], "button", "Go to slide 1", 0⟩, ⟨["dot"], "button", "Go to slide 2", 1⟩,
             ⟨["dot"], "button", "Go to slide 3", 2⟩, ⟨["dot"], "button", "Go to slide 4", 3⟩,
             ⟨["dot"], "button", "Go to slide 5", 4⟩],
    hasPrev := true, hasNext := true, index := JSNum.num 0,
    timer := some 1, lastHandle := 1, scheduled := [⟨1, 3500⟩] }

/-! ## Invariants -/

/-- The variable `timer` and the timer table agree: either `timer` is `null` and
nothing is scheduled, or `timer` holds a positive handle the browser has given
out and exactly that timer is scheduled. -/
def TimerOK (w : World) : Prop :=
  (w.timer = none ∧ w.scheduled = []) ∨
    ∃ h r, w.timer = some h ∧ h ≠ 0 ∧ h ≤ w.lastHandle ∧ w.scheduled = [⟨h, r⟩]

/-- The arrays have `n` entries each and indicator `i` navigates to slide `i`. -/
def Shape (n : Nat) (w : World) : Prop :=
  w.slides.length = n ∧ w.dots.length = n ∧ ∀ (i : Nat) (d : Dot), w.dots[i]? = some d → d.target = i

/-- The variable `index` is an integer of the range `0 .. n-1`. -/
def InRange (n : Nat) (w : World) : Prop :=
  ∃ z : Int, w.index = JSNum.num z ∧ 0 ≤ z ∧ z < n

/-- Events that leave a stopped autoplay stopped: the passing of time, a timer
firing, a further hover-enter and a direct call of `stop`. -/
def Event.quiet : Event → Bool
  | Event.elapse _ => true
  | Event.timerFire _ => true
  | Event.mouseEnter => true
  | Event.callStop => true
  | _ => false

/-! ## What the script leaves behind -/

/-- Whether the script ended by raising an error. -/
def Outcome.raised : Outcome → Bool
  | Outcome.threw => true
  | _ => false

/-- The interval timers scheduled when the script has ended. -/
def Outcome.timers : Outcome → List Timer
  | Outcome.running w => w.scheduled
  | _ => []

/-- The indicators the script has created. -/
def Outcome.created : Outcome → List Dot
  | Outcome.running w => w.dots
  | _ => []

/-- The page when the script has ended.  Lines 2-11 only read the page, so a
script that returned at line 3 or raised at line 14 leaves it as it was. -/
def Outcome.page (host : Host) : Outcome → Host
  | Outcome.running w =>
    ⟨some { slides := w.slides, hasPrev := w.hasPrev, hasNext := w.hasNext,
            dotsWrap := some w.dots }⟩
  | _ => host

/-- A class list without the `active` marker. -/
def unmark (classes : List String) : List String :=
  classes.filter (fun c => decide (c ≠ "active"))

/-- The slides in order, each without its `active` marker. -/
def slideFrame (slides : List Element) : List (List String) :=
  slides.map (fun s => unmark s.classes)

/-- The indicators in order, each with its class list without the `active`
marker, its `type`, its label and the target of its click listener. -/
def dotFrame (dots : List Dot) : List (List String × String × String × Nat) :=
  dots.map (fun d => (unmark d.classes, d.type, d.ariaLabel, d.target))

/-! ## Class lists -/

theorem contains_toggle (cl : List String) (tok : String) (f : Bool) :
    contains (toggle cl tok f) tok = f := by
  cases f
  · simp [toggle, contains]
  · by_cases h : tok ∈ cl <;> simp [toggle, contains, h]

theorem toggleSlides_length (x : JSNum) (i : Nat) (l : List Element) :
    (toggleSlides x i l).length = l.length := by
  induction l generalizing i with
  | nil => rfl
  | cons s rest ih => simp [toggleSlides, ih]

theorem toggleDots_length (x : JSNum) (i : Nat) (l : List Dot) :
    (toggleDots x i l).length = l.length := by
  induction l generalizing i with
  | nil => rfl
  | cons s rest ih => simp [toggleDots, ih]

theorem toggleSlides_getElem? (x : JSNum) (i : Nat) (l : List Element) (j : Nat) :
    (toggleSlides x i l)[j]? =
      (l[j]?).map (fun s => { s with classes := toggle s.classes "active" (JSNum.strictEq (i + j) x) }) := by
  induction l generalizing i j with
  | nil => simp [toggleSlides]
  | cons s rest ih =>
    cases j with
    | zero => simp [toggleSlides]
    | succ j => simp [toggleSlides, ih, Nat.add_assoc, Nat.add_comm 1 j]

theorem toggleDots_getElem? (x : JSNum) (i : Nat) (l : List Dot) (j : Nat) :
    (toggleDots x i l)[j]? =
      (l[j]?).map (fun d => { d with classes := toggle d.classes "active" (JSNum.strictEq (i + j) x) }) := by
  induction l generalizing i j with
  | nil => simp [toggleDots]
  | cons s rest ih =>
    cases j with
    | zero => simp [toggleDots]
    | succ j => simp [toggleDots, ih, Nat.add_assoc, Nat.add_comm 1 j]

/-! ## What each function leaves alone -/

@[simp]
theorem render_index (w : World) : (render w).index = w.index := rfl
@[simp]
theorem render_timer (w : World) : (render w).timer = w.timer := rfl
@[simp]
theorem render_scheduled (w : World) : (render w).scheduled = w.scheduled := rfl
@[simp]
theorem render_lastHandle (w : World) : (render w).lastHandle = w.lastHandle := rfl
@[simp]
theorem render_hasPrev (w : World) : (render w).hasPrev = w.hasPrev := rfl
@[simp]
theorem render_hasNext (w : World) : (render w).hasNext = w.hasNext := rfl
@[simp]
theorem render_slides_length (w : World) : (render w).slides.length = w.slides.length :=
  toggleSlides_length _ _ _
@[simp]
theorem render_dots_length (w : World) : (render w).dots.length = w.dots.length :=
  toggleDots_length _ _ _

@[simp]
theorem start_slides (w : World) : (start w).slides = w.slides := by
  unfold start; split <;> rfl
@[simp]
theorem start_dots (w : World) : (start w).dots = w.dots := by
  unfold start; split <;> rfl
@[simp]
theorem start_index (w : World) : (start w).index = w.index := by
  unfold start; split <;> rfl
@[simp]
theorem start_hasPrev (w : World) : (start w).hasPrev = w.hasPrev := by
  unfold start; split <;> rfl
@[simp]
theorem start_hasNext (w : World) : (start w).hasNext = w.hasNext := by
  unfold start; split <;> rfl

@[simp]
theorem stop_slides (w : World) : (stop w).slides = w.slides := by
  unfold stop; split <;> [split; skip] <;> rfl
@[simp]
theorem stop_dots (w : World) : (stop w).dots = w.dots := by
  unfold stop; split <;> [split; skip] <;> rfl
@[simp]
theorem stop_index (w : World) : (stop w).index = w.index := by
  unfold stop; split <;> [split; skip] <;> rfl
@[simp]
theorem stop_hasPrev (w : World) : (stop w).hasPrev = w.hasPrev := by
  unfold stop; split <;> [split; skip] <;> rfl
@[simp]
theorem stop_hasNext (w : World) : (stop w).hasNext = w.hasNext := by
  unfold stop; split <;> [split; skip] <;> rfl
@[simp]
theorem stop_lastHandle (w : World) : (stop w).lastHandle = w.lastHandle := by
  unfold stop; split <;> [split; skip] <;> rfl

@[simp]
theorem restart_slides (w : World) : (restart w).slides = w.slides := by simp [restart]
@[simp]
theorem restart_dots (w : World) : (restart w).dots = w.dots := by simp [restart]
@[simp]
theorem restart_index (w : World) : (restart w).index = w.index := by simp [restart]
@[simp]
theorem restart_hasPrev (w : World) : (restart w).hasPrev = w.hasPrev := by simp [restart]
@[simp]
theorem restart_hasNext (w : World) : (restart w).hasNext = w.hasNext := by simp [restart]

/-- The value `go` stores in `index`. -/
theorem go_index (x : JSNum) (u : Bool) (w : World) :
    (go x u w).index =
      JSNum.rem (JSNum.add x (JSNum.num (w.slides.length : Int))) (JSNum.num (w.slides.length : Int)) := by
  unfold go; cases u <;> simp

theorem go_slides_length (x : JSNum) (u : Bool) (w : World) :
    (go x u w).slides.length = w.slides.length := by
  unfold go; cases u <;> simp

theorem go_dots_length (x : JSNum) (u : Bool) (w : World) :
    (go x u w).dots.length = w.dots.length := by
  unfold go; cases u <;> simp

theorem go_hasPrev (x : JSNum) (u : Bool) (w : World) : (go x u w).hasPrev = w.hasPrev := by
  unfold go; cases u <;> simp

theorem go_hasNext (x : JSNum) (u : Bool) (w : World) : (go x u w).hasNext = w.hasNext := by
  unfold go; cases u <;> simp

/-- The remainder of `go` on an argument not below `-N`. -/
theorem rem_wrap (k : Int) (n : Nat) (hn : 1 ≤ n) (hk : -(n : Int) ≤ k) :
    JSNum.rem (JSNum.add (JSNum.num k) (JSNum.num (n : Int))) (JSNum.num (n : Int))
      = JSNum.num (k % (n : Int)) := by
  have hn0 : (n : Int) ≠ 0 := by omega
  simp only [JSNum.add, JSNum.rem, if_neg hn0]
  rw [Int.tmod_eq_emod (by omega) (by omega), Int.add_emod_self]

/-! ## The autoplay functions and the timer table -/

theorem stop_of_ok (w : World) (h : TimerOK w) :
    (stop w).timer = none ∧ (stop w).scheduled = [] := by
  rcases h with ⟨ht, hs⟩ | ⟨h, r, ht, h0, _, hs⟩
  · simp [stop, ht, hs]
  · simp [stop, ht, h0, clearInterval, hs]

theorem start_of_idle (w : World) (ht : w.timer = none) (hs : w.scheduled = []) :
    (start w).timer = some (w.lastHandle + 1) ∧
      (start w).scheduled = [⟨w.lastHandle + 1, intervalMs⟩] ∧
      (start w).lastHandle = w.lastHandle + 1 := by
  simp [start, truthy, ht, setInterval, hs]

theorem start_of_busy (w : World) (h : Nat) (ht : w.timer = some h) (h0 : h ≠ 0) :
    start w = w := by
  simp [start, truthy, ht, h0]

theorem restart_of_ok (w : World) (h : TimerOK w) :
    (restart w).timer = some (w.lastHandle + 1) ∧
      (restart w).scheduled = [⟨w.lastHandle + 1, intervalMs⟩] ∧
      (restart w).lastHandle = w.lastHandle + 1 := by
  have hs := stop_of_ok w h
  have := start_of_idle (stop w) hs.1 hs.2
  simpa [restart] using this

theorem timerOK_stop (w : World) (h : TimerOK w) : TimerOK (stop w) :=
  Or.inl (stop_of_ok w h)

theorem timerOK_start (w : World) (h : TimerOK w) : TimerOK (start w) := by
  rcases h with ⟨ht, hs⟩ | ⟨h, r, ht, h0, hle, hs⟩
  · obtain ⟨a, b, c⟩ := start_of_idle w ht hs
    exact Or.inr ⟨w.lastHandle + 1, intervalMs, a, by omega, by omega, b⟩
  · rw [start_of_busy w h ht h0]
    exact Or.inr ⟨h, r, ht, h0, hle, hs⟩

theorem timerOK_restart (w : World) (h : TimerOK w) : TimerOK (restart w) := by
  obtain ⟨a, b, c⟩ := restart_of_ok w h
  exact Or.inr ⟨w.lastHandle + 1, intervalMs, a, by omega, by omega, b⟩

theorem timerOK_congr (w v : World) (ht : v.timer = w.timer) (hs : v.scheduled = w.scheduled)
    (hl : v.lastHandle = w.lastHandle) (h : TimerOK w) : TimerOK v := by
  unfold TimerOK at *
  rw [ht, hs, hl]; exact h

/-- Without `userAction`, `go` leaves the timer alone. -/
theorem go_auto_timer (x : JSNum) (w : World) :
    (go x false w).timer = w.timer ∧ (go x false w).scheduled = w.scheduled ∧
      (go x false w).lastHandle = w.lastHandle := by
  simp [go]

/-- With `userAction`, `go` ends with one freshly scheduled timer. -/
theorem go_user_timer (x : JSNum) (w : World) (h : TimerOK w) :
    (go x true w).timer = some (w.lastHandle + 1) ∧
      (go x true w).scheduled = [⟨w.lastHandle + 1, intervalMs⟩] ∧
      (go x true w).lastHandle = w.lastHandle + 1 := by
  exact restart_of_ok _ (timerOK_congr w _ rfl rfl rfl h)

theorem timerOK_go (x : JSNum) (u : Bool) (w : World) (h : TimerOK w) : TimerOK (go x u w) := by
  cases u
  · obtain ⟨a, b, c⟩ := go_auto_timer x w
    exact timerOK_congr w _ a b c h
  · obtain ⟨a, b, c⟩ := go_user_timer x w h
    exact Or.inr ⟨w.lastHandle + 1, intervalMs, a, by omega, by omega, b⟩

theorem timerOK_fire (k : Nat) (w : World) (h : TimerOK w) : TimerOK (fire k w) := by
  unfold Slider.fire
  split
  · have hg := timerOK_go (JSNum.add w.index (JSNum.num 1)) false w h
    rcases hg with ⟨ht, hs⟩ | ⟨g, r, ht, h0, hle, hs⟩
    · exact Or.inl ⟨ht, by simp [next, hs]⟩
    · refine Or.inr ⟨g, if g = k then intervalMs else r, ht, h0, hle, ?_⟩
      simp only [next, hs, List.map]
      split <;> rfl
  · exact h

theorem timerOK_elapse (ms : Nat) (w : World) (h : TimerOK w) : TimerOK (elapse ms w) := by
  rcases h with ⟨ht, hs⟩ | ⟨g, r, ht, h0, hle, hs⟩
  · exact Or.inl ⟨ht, by simp [Slider.elapse, hs]⟩
  · exact Or.inr ⟨g, r - ms, ht, h0, hle, by simp [Slider.elapse, hs]⟩

theorem timerOK_step (w : World) (e : Event) (h : TimerOK w) : TimerOK (step w e) := by
  cases e with
  | dotClick i =>
    simp only [Slider.step]
    split
    · exact timerOK_go _ _ _ h
    · exact h
  | prevClick =>
    simp only [Slider.step]
    split
    · exact timerOK_go _ _ _ h
    · exact h
  | nextClick =>
    simp only [Slider.step]
    split
    · exact timerOK_go _ _ _ h
    · exact h
  | timerFire k => exact timerOK_fire k w h
  | mouseEnter => exact timerOK_stop w h
  | mouseLeave => exact timerOK_start w h
  | elapse ms => exact timerOK_elapse ms w h
  | callStart => exact timerOK_start w h
  | callStop => exact timerOK_stop w h
  | callRestart => exact timerOK_restart w h

theorem timerOK_run (es : List Event) (w : World) (h : TimerOK w) : TimerOK (run w es) := by
  induction es generalizing w with
  | nil => exact h
  | cons e es ih => exact ih (Slider.step w e) (timerOK_step w e h)

/-- What a successful run of the script looks like. -/
theorem init_running (host : Host) (h0 : Nat) (w : World) (h : init host h0 = Outcome.running w) :
    ∃ c, host.container = some c ∧ c.dotsWrap ≠ none ∧
      w = start (render
        { slides := c.slides, dots := buildDots (startIndex c.slides) 0 c.slides,
          hasPrev := c.hasPrev, hasNext := c.hasNext, index := startIndex c.slides,
          timer := none, lastHandle := h0, scheduled := [] }) := by
  unfold init at h
  split at h
  · cases h
  · rename_i c hc
    refine ⟨c, hc, ?_⟩
    split at h
    · cases h
    · rename_i l hl
      refine ⟨by simp [hl], ?_⟩
      injection h with h
      exact h.symm

theorem timerOK_init (host : Host) (h0 : Nat) (w : World) (h : init host h0 = Outcome.running w) :
    TimerOK w := by
  obtain ⟨c, _, _, rfl⟩ := init_running host h0 w h
  exact timerOK_start _ (Or.inl ⟨rfl, rfl⟩)

/-! ## Shape of the arrays and range of the index -/

theorem go_slides (x : JSNum) (u : Bool) (w : World) :
    (go x u w).slides = toggleSlides (go x u w).index 0 w.slides := by
  rw [go_index]; unfold go; cases u <;> simp [render]

theorem go_dots (x : JSNum) (u : Bool) (w : World) :
    (go x u w).dots = toggleDots (go x u w).index 0 w.dots := by
  rw [go_index]; unfold go; cases u <;> simp [render]

theorem toggleDots_target (x : JSNum) (l : List Dot) (i : Nat) (d : Dot)
    (h : (toggleDots x 0 l)[i]? = some d) : ∃ d0, l[i]? = some d0 ∧ d.target = d0.target := by
  rw [toggleDots_getElem?] at h
  cases hl : l[i]? with
  | none => simp [hl] at h
  | some d0 =>
    refine ⟨d0, rfl, ?_⟩
    simp [hl] at h
    rw [← h]

theorem shape_go (n : Nat) (x : JSNum) (u : Bool) (w : World) (h : Shape n w) :
    Shape n (go x u w) := by
  obtain ⟨hs, hd, ht⟩ := h
  refine ⟨by rw [go_slides_length]; exact hs, by rw [go_dots_length]; exact hd, ?_⟩
  intro i d hi
  rw [go_dots] at hi
  obtain ⟨d0, h0, e⟩ := toggleDots_target _ _ _ _ hi
  rw [e]; exact ht i d0 h0

theorem shape_congr (n : Nat) (w v : World) (hs : v.slides = w.slides) (hd : v.dots = w.dots)
    (h : Shape n w) : Shape n v := by
  unfold Shape at *
  rw [hs, hd]; exact h

theorem shape_fire (n k : Nat) (w : World) (h : Shape n w) : Shape n (fire k w) := by
  unfold Slider.fire
  split
  · exact shape_congr n (Slider.next false w) _ rfl rfl (shape_go n _ _ w h)
  · exact h

theorem shape_step (n : Nat) (w : World) (e : Event) (h : Shape n w) : Shape n (step w e) := by
  cases e with
  | dotClick i =>
    simp only [Slider.step]
    split
    · exact shape_go n _ _ _ h
    · exact h
  | prevClick =>
    simp only [Slider.step]
    split
    · exact shape_go n _ _ _ h
    · exact h
  | nextClick =>
    simp only [Slider.step]
    split
    · exact shape_go n _ _ _ h
    · exact h
  | timerFire k => exact shape_fire n k w h
  | mouseEnter => exact shape_congr n w _ (stop_slides w) (stop_dots w) h
  | mouseLeave => exact shape_congr n w _ (start_slides w) (start_dots w) h
  | elapse ms => exact shape_congr n w _ rfl rfl h
  | callStart => exact shape_congr n w _ (start_slides w) (start_dots w) h
  | callStop => exact shape_congr n w _ (stop_slides w) (stop_dots w) h
  | callRestart => exact shape_congr n w _ (restart_slides w) (restart_dots w) h

theorem buildDots_length (x : JSNum) (i : Nat) (l : List Element) :
    (buildDots x i l).length = l.length := by
  induction l generalizing i with
  | nil => rfl
  | cons s rest ih => simp [buildDots, ih]

theorem buildDots_getElem? (x : JSNum) (i : Nat) (l : List Element) (j : Nat) :
    (buildDots x i l)[j]? = if j < l.length then some (mkDot x (i + j)) else none := by
  induction l generalizing i j with
  | nil => simp [buildDots]
  | cons s rest ih =>
    cases j with
    | zero => simp [buildDots]
    | succ j => simp [buildDots, ih, Nat.add_assoc, Nat.add_comm 1 j]

theorem shape_init (host : Host) (h0 : Nat) (w : World) (c : Container)
    (hc : host.container = some c) (h : init host h0 = Outcome.running w) :
    Shape c.slides.length w := by
  obtain ⟨c1, hc1, _, rfl⟩ := init_running host h0 w h
  rw [hc] at hc1
  cases hc1
  refine shape_congr _ (render _) _ (start_slides _) (start_dots _) ?_
  refine ⟨by simp, by simp [buildDots_length], ?_⟩
  intro i d hi
  obtain ⟨d0, hd0, e⟩ := toggleDots_target _ _ _ _ hi
  rw [e]
  rw [buildDots_getElem?] at hd0
  split at hd0
  · injection hd0 with hd0
    rw [← hd0]; simp [mkDot]
  · cases hd0

theorem inRange_congr (n : Nat) (w v : World) (hi : v.index = w.index) (h : InRange n w) :
    InRange n v := by
  unfold InRange at *
  rw [hi]; exact h

theorem inRange_go (n : Nat) (k : Int) (u : Bool) (w : World) (hl : w.slides.length = n)
    (hn : 1 ≤ n) (hk : -(n : Int) ≤ k) : InRange n (go (JSNum.num k) u w) := by
  refine ⟨k % (n : Int), ?_, Int.emod_nonneg _ (by omega), Int.emod_lt_of_pos _ (by omega)⟩
  rw [go_index, hl, rem_wrap k n hn hk]

theorem inRange_next (n : Nat) (u : Bool) (w : World) (hl : w.slides.length = n)
    (h : InRange n w) : InRange n (next u w) := by
  obtain ⟨z, hz, h0, h1⟩ := h
  unfold Slider.next
  rw [hz]
  exact inRange_go n (z + 1) u w hl (by omega) (by omega)

theorem inRange_prev (n : Nat) (u : Bool) (w : World) (hl : w.slides.length = n)
    (h : InRange n w) : InRange n (prev u w) := by
  obtain ⟨z, hz, h0, h1⟩ := h
  unfold Slider.prev
  rw [hz]
  exact inRange_go n (z - 1) u w hl (by omega) (by omega)

theorem inRange_step (n : Nat) (w : World) (e : Event) (hs : Shape n w) (h : InRange n w) :
    InRange n (step w e) := by
  have hn : 1 ≤ n := by
    obtain ⟨z, _, h0, h1⟩ := h
    omega
  cases e with
  | dotClick i =>
    simp only [Slider.step]
    split
    · rename_i d hd
      have hi : i < w.dots.length := by
        by_contra hlt
        rw [List.getElem?_eq_none (by omega)] at hd
        cases hd
      rw [hs.2.2 i d hd]
      exact inRange_go n _ _ w hs.1 hn (by omega)
    · exact h
  | prevClick =>
    simp only [Slider.step]
    split
    · exact inRange_prev n _ w hs.1 h
    · exact h
  | nextClick =>
    simp only [Slider.step]
    split
    · exact inRange_next n _ w hs.1 h
    · exact h
  | timerFire k =>
    simp only [Slider.step, Slider.fire]
    split
    · exact inRange_congr n (Slider.next false w) _ rfl (inRange_next n _ w hs.1 h)
    · exact h
  | mouseEnter => exact inRange_congr n w _ (stop_index w) h
  | mouseLeave => exact inRange_congr n w _ (start_index w) h
  | elapse ms => exact inRange_congr n w _ rfl h
  | callStart => exact inRange_congr n w _ (start_index w) h
  | callStop => exact inRange_congr n w _ (stop_index w) h
  | callRestart => exact inRange_congr n w _ (restart_index w) h

theorem findIndexFrom_range (i : Nat) (l : List Element) :
    findIndexFrom i l = -1 ∨ ((i : Int) ≤ findIndexFrom i l ∧ findIndexFrom i l < (i + l.length : Nat)) := by
  induction l generalizing i with
  | nil => left; rfl
  | cons s rest ih =>
    unfold findIndexFrom
    split
    · right; simp only [List.length_cons]; omega
    · rcases ih (i + 1) with h | h
      · left; exact h
      · right; simp only [List.length_cons]; omega

theorem startIndex_range (l : List Element) (hn : 1 ≤ l.length) :
    ∃ z : Int, startIndex l = JSNum.num z ∧ 0 ≤ z ∧ z < l.length := by
  unfold startIndex findIndex
  rcases findIndexFrom_range 0 l with h | h
  · exact ⟨0, by simp [h, JSNum.ltZero], by omega, by omega⟩
  · refine ⟨findIndexFrom 0 l, ?_, by omega, by omega⟩
    have : ¬ findIndexFrom 0 l < 0 := by omega
    simp [JSNum.ltZero, this]

theorem inRange_init (host : Host) (h0 : Nat) (w : World) (c : Container)
    (hc : host.container = some c) (hn : 1 ≤ c.slides.length)
    (h : init host h0 = Outcome.running w) : InRange c.slides.length w := by
  obtain ⟨c1, hc1, _, rfl⟩ := init_running host h0 w h
  rw [hc] at hc1
  cases hc1
  exact inRange_congr _ (render _) _ (start_index _) (startIndex_range c.slides hn)

theorem shape_run (n : Nat) (es : List Event) (w : World) (h : Shape n w) : Shape n (run w es) := by
  induction es generalizing w with
  | nil => exact h
  | cons e es ih => exact ih (Slider.step w e) (shape_step n w e h)

theorem inRange_run (n : Nat) (es : List Event) (w : World) (hs : Shape n w) (h : InRange n w) :
    InRange n (run w es) := by
  induction es generalizing w with
  | nil => exact h
  | cons e es ih => exact ih (Slider.step w e) (shape_step n w e hs) (inRange_step n w e hs h)

/-! ## The markers after `render` -/

theorem filter_range_eq (n a : Nat) :
    (List.range n).filter (fun i => decide (i = a)) = if a < n then [a] else [] := by
  induction n with
  | zero => simp
  | succ n ih =>
    rw [List.range_succ, List.filter_append, ih]
    by_cases h1 : a < n
    · have h2 : ¬ n = a := by omega
      simp [h1, h2, Nat.lt_succ_of_lt h1]
    · by_cases h2 : n = a
      · subst h2; simp
      · have h3 : ¬ a < n + 1 := by omega
        simp [h1, h2, h3]

theorem filter_range_strictEq (n : Nat) (z : Int) (h0 : 0 ≤ z) (h1 : z < n) :
    (List.range n).filter (fun i => JSNum.strictEq i (JSNum.num z)) = [z.toNat] := by
  have hf : (List.range n).filter (fun i => JSNum.strictEq i (JSNum.num z))
      = (List.range n).filter (fun i => decide (i = z.toNat)) := by
    apply List.filter_congr
    intro i _
    simp only [JSNum.strictEq]
    by_cases h : i = z.toNat
    · have : (i : Int) = z := by omega
      rw [decide_eq_true this, decide_eq_true h]
    · have : ¬ (i : Int) = z := by omega
      rw [decide_eq_false this, decide_eq_false h]
  rw [hf, filter_range_eq]
  have : z.toNat < n := by omega
  simp [this]

theorem activeSlides_of_toggle (w : World) (x : JSNum) (l : List Element)
    (h : w.slides = toggleSlides x 0 l) :
    activeSlides w = (List.range l.length).filter (fun i => JSNum.strictEq i x) := by
  unfold activeSlides
  rw [h, toggleSlides_length]
  apply List.filter_congr
  intro i hi
  rw [List.mem_range] at hi
  rw [toggleSlides_getElem?, List.getElem?_eq_getElem hi]
  simp [contains_toggle]

theorem activeDots_of_toggle (w : World) (x : JSNum) (l : List Dot)
    (h : w.dots = toggleDots x 0 l) :
    activeDots w = (List.range l.length).filter (fun i => JSNum.strictEq i x) := by
  unfold activeDots
  rw [h, toggleDots_length]
  apply List.filter_congr
  intro i hi
  rw [List.mem_range] at hi
  rw [toggleDots_getElem?, List.getElem?_eq_getElem hi]
  simp [contains_toggle]

/-- After `go`, the marked slides and indicators are the positions equal to `index`. -/
theorem active_after_go (x : JSNum) (u : Bool) (w : World) :
    activeSlides (go x u w)
        = (List.range w.slides.length).filter (fun i => JSNum.strictEq i (go x u w).index) ∧
      activeDots (go x u w)
        = (List.range w.dots.length).filter (fun i => JSNum.strictEq i (go x u w).index) :=
  ⟨activeSlides_of_toggle _ _ _ (go_slides x u w), activeDots_of_toggle _ _ _ (go_dots x u w)⟩

/-! ## The formula of the specification -/

theorem neg_lt_tmod (k : Int) (n : Nat) (hn : 1 ≤ n) : -(n : Int) < Int.tmod k (n : Int) := by
  cases k with
  | ofNat m =>
    have h : 0 ≤ Int.tmod (Int.ofNat m) (n : Int) := Int.tmod_nonneg (n : Int) (Int.ofNat_nonneg m)
    omega
  | negSucc m =>
    have e : Int.tmod (Int.negSucc m) (n : Int) = -(((m + 1) % n : Nat) : Int) := rfl
    rw [e]
    have := Nat.mod_lt (m + 1) hn
    omega

/-- The formula `((k % N) + N) % N` is the mathematical `k mod N`. -/
theorem wrapSpec_eq_emod (k : Int) (n : Nat) (hn : 1 ≤ n) : wrapSpec k n = k % (n : Int) := by
  unfold wrapSpec
  have h1 := neg_lt_tmod k n hn
  rw [Int.tmod_eq_emod (by omega) (by omega), Int.add_emod_self]
  have h2 := Int.tmod_add_tdiv k (n : Int)
  have h3 : k % (n : Int) = (Int.tmod k n + (n : Int) * (k.tdiv n)) % (n : Int) := by rw [h2]
  rw [h3, Int.add_mul_emod_self_left]

/-! ## The example pages -/

theorem init_demo : init ⟨some demoContainer⟩ 0 = Outcome.running demoWorld := by decide

theorem init_five : init ⟨some fiveContainer⟩ 0 = Outcome.running fiveWorld := by decide

/-! ## Exact and rounded sums -/

theorem spacing_small (fuel m : Nat) (h : m < 2 ^ 53) : JSNum.spacing fuel m = 1 := by
  cases fuel with
  | zero => rfl
  | succ f =>
    unfold JSNum.spacing
    rw [if_pos h]

/-- Integers up to `2^53` in magnitude are binary64 values. -/
theorem round64_exact (z : Int) (h : z.natAbs ≤ 2 ^ 53) : JSNum.round64 z = z := by
  rcases Nat.lt_or_eq_of_le h with hlt | heq
  · unfold JSNum.round64
    rw [spacing_small _ _ hlt]
    simp
  · have hz : z = 9007199254740992 ∨ z = -9007199254740992 := by omega
    rcases hz with rfl | rfl <;> decide

/-- Where the exact sum is at most `2^53` in magnitude, binary64 adds exactly. -/
theorem addDouble_eq_add (a b : Int) (h : (a + b).natAbs ≤ 2 ^ 53) :
    JSNum.addDouble (JSNum.num a) (JSNum.num b) = JSNum.add (JSNum.num a) (JSNum.num b) := by
  simp only [JSNum.addDouble, JSNum.add, round64_exact _ h]

/-! ## Wraparound -/

/-- C1, as stated, fails at both ends.  Below `-N`: on the four slides of
`demoWorld` the call `go(-5, _)` leaves `index` at `-1`, where the formula
`((k % N) + N) % N` of the claim gives `3`.  Above `2^53 - N`: for `k = 2^53 - 1`
on four slides the sum `k + 4` is no binary64 value and is rounded to
`2^53 + 4`, so line 31 yields `0`, where the formula gives `3`. -/
theorem go_wraparound_fails_outside_range :
    init ⟨some demoContainer⟩ 0 = Outcome.running demoWorld ∧
      demoWorld.slides.length = 4 ∧
      (go (JSNum.num (-5)) false demoWorld).index = JSNum.num (-1) ∧
      wrapSpec (-5) 4 = 3 ∧
      (go (JSNum.num (-5)) false demoWorld).index
        ≠ JSNum.num (wrapSpec (-5) demoWorld.slides.length) ∧
      JSNum.addDouble (JSNum.num 9007199254740991) (JSNum.num 4)
        = JSNum.num 9007199254740996 ∧
      wrapDouble 9007199254740991 demoWorld.slides.length = JSNum.num 0 ∧
      wrapSpec 9007199254740991 4 = 3 ∧
      wrapDouble 9007199254740991 demoWorld.slides.length
        ≠ JSNum.num (wrapSpec 9007199254740991 demoWorld.slides.length) := by
  decide

/-- C1 (amended): for every slide count `N ≥ 1` and every integer `k` with
`-N ≤ k` and `k + N ≤ 2^53`, `go(k, _)` leaves `index` equal to
`((k % N) + N) % N` with the truncating remainder, which is the mathematical
`k mod N` and lies in `[0, N-1]`.  On this range the sum of line 31 is exact in
binary64, so the value computed with the rounded sum is the same. -/
theorem go_wraparound (w : World) (k : Int) (u : Bool)
    (hn : 1 ≤ w.slides.length) (hk : -(w.slides.length : Int) ≤ k)
    (hmax : k + (w.slides.length : Int) ≤ 2 ^ 53) :
    (go (JSNum.num k) u w).index = JSNum.num (wrapSpec k w.slides.length) ∧
      wrapDouble k w.slides.length = JSNum.num (wrapSpec k w.slides.length) ∧
      wrapSpec k w.slides.length = k % (w.slides.length : Int) ∧
      0 ≤ wrapSpec k w.slides.length ∧
      wrapSpec k w.slides.length ≤ (w.slides.length : Int) - 1 := by
  have e := wrapSpec_eq_emod k w.slides.length hn
  have hpos : (0 : Int) < (w.slides.length : Int) := by omega
  have h0 := Int.emod_nonneg k (Int.ne_of_gt hpos)
  have h1 := Int.emod_lt_of_pos k hpos
  have hsafe : (k + (w.slides.length : Int)).natAbs ≤ 2 ^ 53 := by omega
  refine ⟨?_, ?_, e, by omega, by omega⟩
  · rw [go_index, rem_wrap k _ hn hk, e]
  · unfold wrapDouble
    rw [addDouble_eq_add _ _ hsafe, rem_wrap k _ hn hk, e]

/-- The two examples of the specification for C1: on four slides `go(-1)` gives
`3` and `go(4)` gives `0`; and the largest argument of the range, `2^53 - 4`,
gives `0` with the exact and with the rounded sum. -/
theorem go_wraparound_witness :
    (1 ≤ demoWorld.slides.length ∧ -(demoWorld.slides.length : Int) ≤ -1 ∧
        -1 + (demoWorld.slides.length : Int) ≤ 2 ^ 53) ∧
      ((go (JSNum.num (-1)) false demoWorld).index
          = JSNum.num (wrapSpec (-1) demoWorld.slides.length) ∧
        wrapDouble (-1) demoWorld.slides.length
          = JSNum.num (wrapSpec (-1) demoWorld.slides.length) ∧
        wrapSpec (-1) demoWorld.slides.length = -1 % (demoWorld.slides.length : Int) ∧
        0 ≤ wrapSpec (-1) demoWorld.slides.length ∧
        wrapSpec (-1) demoWorld.slides.length ≤ (demoWorld.slides.length : Int) - 1) ∧
      (go (JSNum.num (-1)) false demoWorld).index = JSNum.num 3 ∧
      (go (JSNum.num 4) false demoWorld).index = JSNum.num 0 ∧
      wrapDouble 9007199254740988 demoWorld.slides.length = JSNum.num 0 ∧
      (go (JSNum.num 9007199254740988) false demoWorld).index = JSNum.num 0 :=
  ⟨⟨by decide, by decide, by decide⟩,
    go_wraparound demoWorld (-1) false (by decide) (by decide) (by decide),
    by decide, by decide, by decide, by decide⟩

/-! ## Index validity -/

/-- C2: on a page with `N ≥ 1` slides, after initialization and any finite
sequence of events, `index` is an integer with `0 ≤ index ≤ N-1`. -/
theorem index_valid_reachable (c : Container) (h0 : Nat) (w0 : World) (es : List Event)
    (hn : 1 ≤ c.slides.length) (hinit : init ⟨some c⟩ h0 = Outcome.running w0) :
    ∃ z : Int, (run w0 es).index = JSNum.num z ∧ 0 ≤ z ∧ z ≤ (c.slides.length : Int) - 1 := by
  have hs := shape_init ⟨some c⟩ h0 w0 c rfl hinit
  have hi := inRange_init ⟨some c⟩ h0 w0 c rfl hn hinit
  obtain ⟨z, hz, a, b⟩ := inRange_run _ es w0 hs hi
  exact ⟨z, hz, a, by omega⟩

/-- C2 on `demoContainer`: a trace through every kind of event. -/
theorem index_valid_reachable_witness :
    (1 ≤ demoContainer.slides.length ∧
        init ⟨some demoContainer⟩ 0 = Outcome.running demoWorld) ∧
      ∃ z : Int,
        (run demoWorld [Event.prevClick, Event.prevClick, Event.mouseEnter, Event.dotClick 3,
            Event.nextClick, Event.mouseLeave, Event.elapse 3500, Event.timerFire 3]).index
          = JSNum.num z ∧ 0 ≤ z ∧ z ≤ (demoContainer.slides.length : Int) - 1 :=
  ⟨⟨by decide, by decide⟩,
    index_valid_reachable demoContainer 0 demoWorld _ (by decide) (by decide)⟩

/-! ## Single timer -/

/-- C3: after initialization and any finite sequence of events (direct calls of
`start`, `stop` and `restart` included), at most one interval timer is
scheduled, `timer` is non-null exactly when one is, and then it holds the
handle of that timer. -/
theorem single_timer_reachable (host : Host) (h0 : Nat) (w0 : World) (es : List Event)
    (hinit : init host h0 = Outcome.running w0) :
    (run w0 es).scheduled.length ≤ 1 ∧
      ((run w0 es).timer ≠ none ↔ (run w0 es).scheduled.length = 1) ∧
      (truthy (run w0 es).timer = true ↔ (run w0 es).scheduled.length = 1) ∧
      ∀ h, (run w0 es).timer = some h → (run w0 es).scheduled.map Timer.handle = [h] := by
  have hok := timerOK_run es w0 (timerOK_init host h0 w0 hinit)
  rcases hok with ⟨ht, hs⟩ | ⟨g, r, ht, hg, _, hs⟩
  · simp [ht, hs, truthy]
  · simp [ht, hs, truthy, hg]

/-- C3 on `demoContainer`: a trace that calls `start` twice in a row and
restarts while stopped. -/
theorem single_timer_reachable_witness :
    init ⟨some demoContainer⟩ 0 = Outcome.running demoWorld ∧
      ((run demoWorld [Event.callStart, Event.mouseLeave, Event.nextClick, Event.mouseEnter,
            Event.callRestart, Event.callStart, Event.timerFire 3]).scheduled.length ≤ 1 ∧
        ((run demoWorld [Event.callStart, Event.mouseLeave, Event.nextClick, Event.mouseEnter,
            Event.callRestart, Event.callStart, Event.timerFire 3]).timer ≠ none ↔
          (run demoWorld [Event.callStart, Event.mouseLeave, Event.nextClick, Event.mouseEnter,
            Event.callRestart, Event.callStart, Event.timerFire 3]).scheduled.length = 1) ∧
        (truthy (run demoWorld [Event.callStart, Event.mouseLeave, Event.nextClick,
            Event.mouseEnter, Event.callRestart, Event.callStart, Event.timerFire 3]).timer
            = true ↔
          (run demoWorld [Event.callStart, Event.mouseLeave, Event.nextClick, Event.mouseEnter,
            Event.callRestart, Event.callStart, Event.timerFire 3]).scheduled.length = 1) ∧
        ∀ h, (run demoWorld [Event.callStart, Event.mouseLeave, Event.nextClick,
            Event.mouseEnter, Event.callRestart, Event.callStart, Event.timerFire 3]).timer
            = some h →
          (run demoWorld [Event.callStart, Event.mouseLeave, Event.nextClick, Event.mouseEnter,
            Event.callRestart, Event.callStart, Event.timerFire 3]).scheduled.map Timer.handle
            = [h]) :=
  ⟨by decide, single_timer_reachable ⟨some demoContainer⟩ 0 demoWorld _ (by decide)⟩

/-! ## Render consistency -/

/-- C4, as stated, fails below `-N`: on the four slides of `demoWorld` the call
`go(-5, _)` leaves `index` at `-1`, and then no slide and no indicator carries
the `active` marker. -/
theorem go_marks_nothing_below_minus_length :
    init ⟨some demoContainer⟩ 0 = Outcome.running demoWorld ∧
      (go (JSNum.num (-5)) false demoWorld).index = JSNum.num (-1) ∧
      activeSlides (go (JSNum.num (-5)) false demoWorld) = [] ∧
      activeDots (go (JSNum.num (-5)) false demoWorld) = [] := by
  decide

/-- C4 (amended): on a page with `N ≥ 1` slides, in every state the controller
can reach, after `go(k, _)` with any integer `k ≥ -N` exactly one slide and
exactly one indicator carry the `active` marker, both at the position equal to
`index`. -/
theorem render_consistency (c : Container) (h0 : Nat) (w0 : World) (es : List Event)
    (k : Int) (u : Bool)
    (hn : 1 ≤ c.slides.length) (hinit : init ⟨some c⟩ h0 = Outcome.running w0)
    (hk : -(c.slides.length : Int) ≤ k) :
    ∃ i : Nat, (go (JSNum.num k) u (run w0 es)).index = JSNum.num (i : Int) ∧
      activeSlides (go (JSNum.num k) u (run w0 es)) = [i] ∧
      activeDots (go (JSNum.num k) u (run w0 es)) = [i] := by
  have hs := shape_run _ es w0 (shape_init ⟨some c⟩ h0 w0 c rfl hinit)
  obtain ⟨hsl, hdl, _⟩ := hs
  obtain ⟨z, hz, a, b⟩ := inRange_go c.slides.length k u (run w0 es) hsl hn hk
  obtain ⟨ms, md⟩ := active_after_go (JSNum.num k) u (run w0 es)
  refine ⟨z.toNat, ?_, ?_, ?_⟩
  · rw [hz, Int.toNat_of_nonneg a]
  · rw [ms, hz, hsl]; exact filter_range_strictEq _ z a b
  · rw [md, hz, hdl]; exact filter_range_strictEq _ z a b

/-- C4 on `demoContainer`: after two clicks, `go(-4, _)` marks slide `0`. -/
theorem render_consistency_witness :
    (1 ≤ demoContainer.slides.length ∧
        init ⟨some demoContainer⟩ 0 = Outcome.running demoWorld ∧
        -(demoContainer.slides.length : Int) ≤ -4) ∧
      ∃ i : Nat,
        (go (JSNum.num (-4)) true (run demoWorld [Event.nextClick, Event.dotClick 3])).index
          = JSNum.num (i : Int) ∧
        activeSlides (go (JSNum.num (-4)) true (run demoWorld [Event.nextClick, Event.dotClick 3]))
          = [i] ∧
        activeDots (go (JSNum.num (-4)) true (run demoWorld [Event.nextClick, Event.dotClick 3]))
          = [i] :=
  ⟨⟨by decide, by decide, by decide⟩,
    render_consistency demoContainer 0 demoWorld _ (-4) true (by decide) (by decide) (by decide)⟩

/-! ## A container without slides -/

/-- C5 fails on the code: a container without slides (and with an indicator
container) is initialized like any other.  The script ends with a controller
whose timer is scheduled, and the first firing computes `1 % 0`, which leaves
`index` at `NaN`. -/
theorem zero_slides_still_schedules (hasPrev hasNext : Bool) (kids : List Dot) (h0 : Nat) :
    ∃ w, init ⟨some ⟨[], hasPrev, hasNext, some kids⟩⟩ h0 = Outcome.running w ∧
      w.timer = some (h0 + 1) ∧
      w.scheduled = [⟨h0 + 1, intervalMs⟩] ∧
      (step w (Event.timerFire (h0 + 1))).index = JSNum.nan :=
  ⟨_, rfl, rfl, rfl, by simp [step, fire, start, render, truthy, setInterval, next, go,
    JSNum.add, JSNum.rem, startIndex, findIndex, findIndexFrom, JSNum.ltZero, toggleSlides]⟩

/-! ## Cycling -/

/-- C6: for `N ≥ 1` slides and `index = i` in `[0, N-1]`, `next` sets `index` to
`i+1` when `i < N-1` and to `0` when `i = N-1`, and `prev` sets it to `i-1`
when `i > 0` and to `N-1` when `i = 0`. -/
theorem next_prev_cycle (w : World) (i : Nat) (u : Bool)
    (hi : w.index = JSNum.num (i : Int)) (hlt : i < w.slides.length) :
    (next u w).index = JSNum.num (if i < w.slides.length - 1 then (i : Int) + 1 else 0) ∧
      (prev u w).index
        = JSNum.num (if 0 < i then (i : Int) - 1 else (w.slides.length : Int) - 1) := by
  have hn : 1 ≤ w.slides.length := by omega
  constructor
  · unfold Slider.next
    rw [hi, JSNum.add, go_index, rem_wrap _ _ hn (by omega)]
    congr 1
    split
    · exact Int.emod_eq_of_lt (by omega) (by omega)
    · have e : (i : Int) + 1 = (w.slides.length : Int) := by omega
      rw [e, Int.emod_self]
  · unfold Slider.prev
    rw [hi, JSNum.sub, go_index, rem_wrap _ _ hn (by omega)]
    congr 1
    split
    · exact Int.emod_eq_of_lt (by omega) (by omega)
    · have e : (i : Int) - 1 = ((w.slides.length : Int) - 1) + (-1) * (w.slides.length : Int) := by
        omega
      rw [e, Int.add_mul_emod_self]
      exact Int.emod_eq_of_lt (by omega) (by omega)

/-- C6 on `demoWorld` moved to its last slide: `next` wraps to `0`. -/
theorem next_prev_cycle_witness :
    ((go (JSNum.num 3) false demoWorld).index = JSNum.num ((3 : Nat) : Int) ∧
        3 < (go (JSNum.num 3) false demoWorld).slides.length) ∧
      (next true (go (JSNum.num 3) false demoWorld)).index
        = JSNum.num (if 3 < (go (JSNum.num 3) false demoWorld).slides.length - 1
            then ((3 : Nat) : Int) + 1 else 0) ∧
      (prev true (go (JSNum.num 3) false demoWorld)).index
        = JSNum.num (if 0 < 3 then ((3 : Nat) : Int) - 1
            else ((go (JSNum.num 3) false demoWorld).slides.length : Int) - 1) :=
  ⟨⟨by decide, by decide⟩,
    next_prev_cycle (go (JSNum.num 3) false demoWorld) 3 true (by decide) (by decide)⟩

/-! ## Indicator clicks -/

/-- The timers scheduled in a consistent state are older than the next handle. -/
theorem timerOK_older (w : World) (h : TimerOK w) :
    ∀ t ∈ w.scheduled, t.handle ≠ w.lastHandle + 1 := by
  rcases h with ⟨_, hs⟩ | ⟨g, r, _, _, hle, hs⟩
  · simp [hs]
  · intro t ht
    rw [hs, List.mem_singleton] at ht
    rw [ht]
    exact Nat.ne_of_lt (Nat.lt_succ_of_le hle)

/-- C7: on a page with `N ≥ 1` slides, in every state the controller can reach,
a click on indicator `k < N` is the call `go(k, true)`: it sets `index` to
exactly `k`, cancels the timer that was scheduled (if any) and leaves one
freshly scheduled timer, held in `timer`. -/
theorem dot_click_routes (c : Container) (h0 : Nat) (w0 : World) (es : List Event) (k : Nat)
    (hinit : init ⟨some c⟩ h0 = Outcome.running w0) (hk : k < c.slides.length) :
    step (run w0 es) (Event.dotClick k) = go (JSNum.num (k : Int)) true (run w0 es) ∧
      (step (run w0 es) (Event.dotClick k)).index = JSNum.num (k : Int) ∧
      (step (run w0 es) (Event.dotClick k)).timer = some ((run w0 es).lastHandle + 1) ∧
      truthy (step (run w0 es) (Event.dotClick k)).timer = true ∧
      (step (run w0 es) (Event.dotClick k)).scheduled
        = [⟨(run w0 es).lastHandle + 1, intervalMs⟩] ∧
      ∀ t ∈ (run w0 es).scheduled, t.handle ≠ (run w0 es).lastHandle + 1 := by
  obtain ⟨hsl, hdl, htg⟩ := shape_run _ es w0 (shape_init ⟨some c⟩ h0 w0 c rfl hinit)
  have hok := timerOK_run es w0 (timerOK_init _ h0 w0 hinit)
  have hget : (run w0 es).dots[k]? = some ((run w0 es).dots[k]) :=
    List.getElem?_eq_getElem (by omega)
  have htk := htg k _ hget
  have e : step (run w0 es) (Event.dotClick k) = go (JSNum.num (k : Int)) true (run w0 es) := by
    simp only [step, hget, htk]
  obtain ⟨a, b, _⟩ := go_user_timer (JSNum.num (k : Int)) (run w0 es) hok
  rw [e]
  refine ⟨rfl, ?_, a, by simp [a, truthy], b, timerOK_older _ hok⟩
  rw [go_index, hsl, rem_wrap _ _ (by omega) (by omega)]
  congr 1
  exact Int.emod_eq_of_lt (by omega) (by omega)

/-- C7 on `demoContainer`: a click on the first indicator while hovering. -/
theorem dot_click_routes_witness :
    (init ⟨some demoContainer⟩ 0 = Outcome.running demoWorld ∧
        0 < demoContainer.slides.length) ∧
      (step (run demoWorld [Event.nextClick, Event.mouseEnter]) (Event.dotClick 0)).index
        = JSNum.num 0 ∧
      (step (run demoWorld [Event.nextClick, Event.mouseEnter]) (Event.dotClick 0)).timer
        = some 3 :=
  ⟨⟨by decide, by decide⟩,
    (dot_click_routes demoContainer 0 demoWorld [Event.nextClick, Event.mouseEnter] 0
      (by decide) (by decide)).2.1,
    (dot_click_routes demoContainer 0 demoWorld [Event.nextClick, Event.mouseEnter] 0
      (by decide) (by decide)).2.2.1⟩

/-! ## Autoplay -/

theorem fire_scheduled (h : Nat) (w : World) (hs : h ∈ w.scheduled.map Timer.handle) :
    (fire h w).index = (next false w).index ∧
      (fire h w).slides.length = w.slides.length ∧
      h ∈ (fire h w).scheduled.map Timer.handle := by
  have hany : (w.scheduled.any fun t => decide (t.handle = h)) = true := by
    rw [List.mem_map] at hs
    obtain ⟨t, ht, e⟩ := hs
    rw [List.any_eq_true]
    exact ⟨t, ht, by simp [e]⟩
  unfold fire
  rw [if_pos hany]
  refine ⟨rfl, go_slides_length _ _ _, ?_⟩
  have hsch : (next false w).scheduled = w.scheduled := (go_auto_timer _ w).2.1
  simp only [hsch, List.map_map]
  rw [List.mem_map] at hs ⊢
  obtain ⟨t, ht, e⟩ := hs
  refine ⟨t, ht, ?_⟩
  simp only [Function.comp]
  split <;> exact e

/-- C8: for `N ≥ 1` slides, `index = i0` in `[0, N-1]` and a scheduled timer,
after `m` firings of that timer, with nothing but the passing of time in
between, `index` is `(i0 + m) mod N`. -/
theorem autoplay_progression (es : List Event) (w : World) (h i0 : Nat)
    (hi : w.index = JSNum.num (i0 : Int)) (hlt : i0 < w.slides.length)
    (hs : h ∈ w.scheduled.map Timer.handle)
    (hes : ∀ e ∈ es, e = Event.timerFire h ∨ ∃ ms, e = Event.elapse ms) :
    (run w es).index
      = JSNum.num (((i0 + es.count (Event.timerFire h)) % w.slides.length : Nat) : Int) := by
  induction es generalizing w i0 with
  | nil => simp [run, hi, Nat.mod_eq_of_lt hlt]
  | cons e es ih =>
    have hn : 0 < w.slides.length := by omega
    rcases hes e (List.mem_cons_self _ _) with rfl | ⟨ms, rfl⟩
    · obtain ⟨a, b, c⟩ := fire_scheduled h w hs
      have hnext : (fire h w).index = JSNum.num (((i0 + 1) % w.slides.length : Nat) : Int) := by
        rw [a]
        unfold next
        rw [hi, JSNum.add, go_index, rem_wrap _ _ hn (by omega)]
        congr 1
      have := ih (fire h w) ((i0 + 1) % w.slides.length) hnext
        (by rw [b]; exact Nat.mod_lt _ hn) c
        (fun e he => hes e (List.mem_cons_of_mem _ he))
      simp only [run, List.foldl_cons, step] at this ⊢
      rw [this, b, List.count_cons_self]
      congr 2
      rw [Nat.add_mod, Nat.mod_mod, ← Nat.add_mod]
      congr 1
      omega
    · have := ih (elapse ms w) i0 hi hlt (by simpa [elapse] using hs)
        (fun e he => hes e (List.mem_cons_of_mem _ he))
      simp only [run, List.foldl_cons, step] at this ⊢
      rw [this]
      have hne : (Event.elapse ms == Event.timerFire h) = false := by
        simp
      rw [List.count_cons, hne]
      simp [elapse]

/-- C8 on the example of the specification: five slides, `index = 0`, three
firings a full interval apart leave `index` at `3`. -/
theorem autoplay_progression_witness :
    (fiveWorld.index = JSNum.num ((0 : Nat) : Int) ∧ 0 < fiveWorld.slides.length ∧
        1 ∈ fiveWorld.scheduled.map Timer.handle ∧
        ∀ e ∈ [Event.elapse 3500, Event.timerFire 1, Event.elapse 3500, Event.timerFire 1,
            Event.elapse 3500, Event.timerFire 1],
          e = Event.timerFire 1 ∨ ∃ ms, e = Event.elapse ms) ∧
      (run fiveWorld [Event.elapse 3500, Event.timerFire 1, Event.elapse 3500, Event.timerFire 1,
          Event.elapse 3500, Event.timerFire 1]).index
        = JSNum.num (((0 + [Event.elapse 3500, Event.timerFire 1, Event.elapse 3500,
            Event.timerFire 1, Event.elapse 3500, Event.timerFire 1].count (Event.timerFire 1))
              % fiveWorld.slides.length : Nat) : Int) ∧
      (run fiveWorld [Event.elapse 3500, Event.timerFire 1, Event.elapse 3500, Event.timerFire 1,
          Event.elapse 3500, Event.timerFire 1]).index = JSNum.num 3 :=
  ⟨⟨by decide, by decide, by decide, by simp⟩,
    autoplay_progression _ fiveWorld 1 0 (by decide) (by decide) (by decide) (by simp),
    by decide⟩

/-! ## Restart on interaction -/

/-- C9: in every state the controller can reach, timer scheduled or not, each
of `go(k, true)`, `next(true)` and `prev(true)` cancels the timer that was
scheduled (if any) and leaves exactly one scheduled timer, held in `timer`,
with the full interval of 3500 ms until its first firing. -/
theorem user_navigation_restarts (host : Host) (h0 : Nat) (w0 : World) (es : List Event)
    (x : JSNum) (hinit : init host h0 = Outcome.running w0) :
    (∀ v ∈ [go x true (run w0 es), next true (run w0 es), prev true (run w0 es)],
        v.timer = some ((run w0 es).lastHandle + 1) ∧
        v.scheduled = [⟨(run w0 es).lastHandle + 1, 3500⟩]) ∧
      (∀ t ∈ (run w0 es).scheduled, t.handle ≠ (run w0 es).lastHandle + 1) ∧
      intervalMs = 3500 := by
  have hok := timerOK_run es w0 (timerOK_init host h0 w0 hinit)
  refine ⟨?_, timerOK_older _ hok, rfl⟩
  intro v hv
  simp only [List.mem_cons, List.mem_singleton, List.not_mem_nil, or_false] at hv
  rcases hv with rfl | rfl | rfl
  · exact ⟨(go_user_timer x _ hok).1, (go_user_timer x _ hok).2.1⟩
  · exact ⟨(go_user_timer _ _ hok).1, (go_user_timer _ _ hok).2.1⟩
  · exact ⟨(go_user_timer _ _ hok).1, (go_user_timer _ _ hok).2.1⟩

/-- C9 on `demoContainer`: `next(true)` one second after a firing, and after a
hover-enter. -/
theorem user_navigation_restarts_witness :
    init ⟨some demoContainer⟩ 0 = Outcome.running demoWorld ∧
      (run demoWorld [Event.elapse 3500, Event.timerFire 1, Event.elapse 1000]).scheduled
        = [⟨1, 2500⟩] ∧
      (next true (run demoWorld [Event.elapse 3500, Event.timerFire 1, Event.elapse 1000])).scheduled
        = [⟨(run demoWorld [Event.elapse 3500, Event.timerFire 1, Event.elapse 1000]).lastHandle + 1,
            3500⟩] :=
  ⟨by decide, by decide,
    ((user_navigation_restarts ⟨some demoContainer⟩ 0 demoWorld
      [Event.elapse 3500, Event.timerFire 1, Event.elapse 1000] (JSNum.num 0) (by decide)).1
        _ (List.mem_cons_of_mem _ (List.mem_cons_self _ _))).2⟩

/-! ## Hover pause -/

/-- C10, as stated, fails: a click on the next button between hover-enter and
hover-leave restarts autoplay, so a timer is scheduled while the pointer is
still over the slider and its firing advances `index`; and at the following
hover-leave `start` finds that timer running and leaves it alone, with less
than a full interval to go. -/
theorem hover_click_restarts_autoplay :
    init ⟨some demoContainer⟩ 0 = Outcome.running demoWorld ∧
      (run demoWorld [Event.mouseEnter]).timer = none ∧
      (run demoWorld [Event.mouseEnter, Event.nextClick]).timer = some 2 ∧
      (run demoWorld [Event.mouseEnter, Event.nextClick]).scheduled = [⟨2, 3500⟩] ∧
      (run demoWorld [Event.mouseEnter, Event.nextClick, Event.elapse 3500]).index
        = JSNum.num 2 ∧
      (run demoWorld [Event.mouseEnter, Event.nextClick, Event.elapse 3500,
        Event.timerFire 2]).index = JSNum.num 3 ∧
      (run demoWorld [Event.mouseEnter, Event.nextClick, Event.elapse 1000,
        Event.mouseLeave]).scheduled = [⟨2, 2500⟩] := by
  decide

theorem quiet_keeps_idle (w : World) (e : Event) (hq : e.quiet = true)
    (ht : w.timer = none) (hs : w.scheduled = []) :
    (step w e).timer = none ∧ (step w e).scheduled = [] ∧ (step w e).index = w.index ∧
      (step w e).lastHandle = w.lastHandle := by
  cases e with
  | elapse ms => simp [step, elapse, ht, hs]
  | timerFire h => simp [step, fire, ht, hs]
  | mouseEnter => simp [step, stop, ht, hs]
  | callStop => simp [step, stop, ht, hs]
  | dotClick i => cases hq
  | prevClick => cases hq
  | nextClick => cases hq
  | mouseLeave => cases hq
  | callStart => cases hq
  | callRestart => cases hq

theorem quiet_run_keeps_idle (qs : List Event) (w : World) (hq : ∀ e ∈ qs, e.quiet = true)
    (ht : w.timer = none) (hs : w.scheduled = []) :
    (run w qs).timer = none ∧ (run w qs).scheduled = [] ∧ (run w qs).index = w.index ∧
      (run w qs).lastHandle = w.lastHandle := by
  induction qs generalizing w with
  | nil => exact ⟨ht, hs, rfl, rfl⟩
  | cons e qs ih =>
    obtain ⟨a, b, c, d⟩ := quiet_keeps_idle w e (hq e (List.mem_cons_self _ _)) ht hs
    obtain ⟨a1, b1, c1, d1⟩ := ih (step w e) (fun e he => hq e (List.mem_cons_of_mem _ he)) a b
    exact ⟨a1, b1, c1.trans c, d1.trans d⟩

/-- C10 (amended): in every state after a hover-enter event and before the next
hover-leave event, as long as no previous/next click, indicator click or call
of `start` or `restart` has occurred since the hover-enter (time may pass,
timers may be due and the pointer may enter again), no timer is scheduled and
`index` is the one at the hover-enter; a hover-leave event in such a state
leaves exactly one scheduled timer with the full interval remaining. -/
theorem hover_pause_until_click (host : Host) (h0 : Nat) (w0 : World) (es qs : List Event)
    (hinit : init host h0 = Outcome.running w0) (hq : ∀ e ∈ qs, e.quiet = true) :
    (run w0 (es ++ Event.mouseEnter :: qs)).timer = none ∧
      (run w0 (es ++ Event.mouseEnter :: qs)).scheduled = [] ∧
      (run w0 (es ++ Event.mouseEnter :: qs)).index = (run w0 es).index ∧
      (∃ h, (run w0 (es ++ Event.mouseEnter :: qs ++ [Event.mouseLeave])).timer = some h ∧
        (run w0 (es ++ Event.mouseEnter :: qs ++ [Event.mouseLeave])).scheduled
          = [⟨h, intervalMs⟩]) := by
  have hok := timerOK_run es w0 (timerOK_init host h0 w0 hinit)
  obtain ⟨a, b⟩ := stop_of_ok _ hok
  obtain ⟨a1, b1, c1, _⟩ := quiet_run_keeps_idle qs (stop (run w0 es)) hq a b
  have e1 : run w0 (es ++ Event.mouseEnter :: qs) = run (stop (run w0 es)) qs := by
    simp [run, List.foldl_append, step]
  have e2 : run w0 (es ++ Event.mouseEnter :: qs ++ [Event.mouseLeave])
      = start (run (stop (run w0 es)) qs) := by
    simp [run, List.foldl_append, step]
  rw [e1, e2]
  refine ⟨a1, b1, by rw [c1, stop_index], ?_⟩
  obtain ⟨a2, b2, _⟩ := start_of_idle _ a1 b1
  exact ⟨_, a2, b2⟩

/-- C10 (amended) on `demoContainer`: a hover that lasts over two intervals. -/
theorem hover_pause_until_click_witness :
    (init ⟨some demoContainer⟩ 0 = Outcome.running demoWorld ∧
        ∀ e ∈ [Event.elapse 3500, Event.timerFire 1, Event.mouseEnter, Event.elapse 4000],
          e.quiet = true) ∧
      (run demoWorld ([Event.nextClick, Event.elapse 1200] ++ Event.mouseEnter ::
          [Event.elapse 3500, Event.timerFire 1, Event.mouseEnter, Event.elapse 4000])).timer = none ∧
      (run demoWorld ([Event.nextClick, Event.elapse 1200] ++ Event.mouseEnter ::
          [Event.elapse 3500, Event.timerFire 1, Event.mouseEnter, Event.elapse 4000])).scheduled
        = [] ∧
      (run demoWorld ([Event.nextClick, Event.elapse 1200] ++ Event.mouseEnter ::
          [Event.elapse 3500, Event.timerFire 1, Event.mouseEnter, Event.elapse 4000])).index
        = (run demoWorld [Event.nextClick, Event.elapse 1200]).index ∧
      (∃ h, (run demoWorld ([Event.nextClick, Event.elapse 1200] ++ Event.mouseEnter ::
          [Event.elapse 3500, Event.timerFire 1, Event.mouseEnter, Event.elapse 4000]
            ++ [Event.mouseLeave])).timer = some h ∧
        (run demoWorld ([Event.nextClick, Event.elapse 1200] ++ Event.mouseEnter ::
          [Event.elapse 3500, Event.timerFire 1, Event.mouseEnter, Event.elapse 4000]
            ++ [Event.mouseLeave])).scheduled = [⟨h, intervalMs⟩]) :=
  ⟨⟨by decide, by decide⟩,
    hover_pause_until_click ⟨some demoContainer⟩ 0 demoWorld [Event.nextClick, Event.elapse 1200]
      [Event.elapse 3500, Event.timerFire 1, Event.mouseEnter, Event.elapse 4000]
      (by decide) (by decide)⟩

/-! ## Idempotent render -/

theorem toggle_toggle (cl : List String) (tok : String) (f : Bool) :
    toggle (toggle cl tok f) tok f = toggle cl tok f := by
  cases f
  · simp [toggle, List.filter_filter]
  · by_cases h : tok ∈ cl <;> simp [toggle, contains, h]

theorem toggleSlides_twice (x : JSNum) (i : Nat) (l : List Element) :
    toggleSlides x i (toggleSlides x i l) = toggleSlides x i l := by
  induction l generalizing i with
  | nil => rfl
  | cons s rest ih => simp [toggleSlides, ih, toggle_toggle]

theorem toggleDots_twice (x : JSNum) (i : Nat) (l : List Dot) :
    toggleDots x i (toggleDots x i l) = toggleDots x i l := by
  induction l generalizing i with
  | nil => rfl
  | cons s rest ih => simp [toggleDots, ih, toggle_toggle]

/-- C11: for every state, whatever its index and whatever markers its slides
and indicators carry, `render` applied twice leaves exactly the state that
`render` applied once leaves; in particular the same class list on every
slide and every indicator. -/
theorem render_idempotent (w : World) :
    render (render w) = render w ∧
      (render (render w)).slides = (render w).slides ∧
      (render (render w)).dots = (render w).dots := by
  have e : render (render w) = render w := by
    simp [render, toggleSlides_twice, toggleDots_twice]
  rw [e]
  exact ⟨rfl, rfl, rfl⟩

/-! ## A container without indicator container -/

/-- C12 fails on the code: on a container that has slides but no `.dots`
element, line 14 dereferences `null` and the script ends with a `TypeError`;
no controller is left and no timer is scheduled. -/
theorem init_without_dots_throws (slides : List Element) (hasPrev hasNext : Bool) (h0 : Nat) :
    init ⟨some ⟨slides, hasPrev, hasNext, none⟩⟩ h0 = Outcome.threw ∧
      (init ⟨some ⟨slides, hasPrev, hasNext, none⟩⟩ h0).raised = true ∧
      (init ⟨some ⟨slides, hasPrev, hasNext, none⟩⟩ h0).timers = [] :=
  ⟨rfl, rfl, rfl⟩

/-! ## The starting index -/

theorem findIndexFrom_none (i : Nat) (l : List Element)
    (h : ∀ s ∈ l, contains s.classes "active" = false) : findIndexFrom i l = -1 := by
  induction l generalizing i with
  | nil => rfl
  | cons s rest ih =>
    unfold findIndexFrom
    rw [h s (List.mem_cons_self _ _)]
    exact ih (i + 1) (fun t ht => h t (List.mem_cons_of_mem _ ht))

theorem findIndexFrom_first (i j : Nat) (l : List Element) (s : Element)
    (hs : l[j]? = some s) (ha : contains s.classes "active" = true)
    (hb : ∀ (k : Nat) (t : Element), k < j → l[k]? = some t → contains t.classes "active" = false) :
    findIndexFrom i l = ((i + j : Nat) : Int) := by
  induction l generalizing i j with
  | nil => simp at hs
  | cons x rest ih =>
    unfold findIndexFrom
    cases j with
    | zero =>
      simp at hs
      rw [hs, ha]
      simp
    | succ j =>
      have hx : contains x.classes "active" = false := hb 0 x (by omega) (by simp)
      rw [hx]
      have := ih (i + 1) j (by simpa using hs)
        (fun k t hk ht => hb (k + 1) t (by omega) (by simpa using ht))
      simp only [Bool.false_eq_true, if_false]
      rw [this]
      congr 1
      omega

/-- The index a successful run of the script starts from. -/
theorem init_index (c : Container) (h0 : Nat) (w : World)
    (h : init ⟨some c⟩ h0 = Outcome.running w) : w.index = startIndex c.slides := by
  obtain ⟨c1, hc1, _, rfl⟩ := init_running _ h0 w h
  cases hc1
  rw [start_index, render_index]

/-- C13: after initialization `index` is the position of the first slide that
carries the `active` marker on the page, and `0` when no slide carries it; on
`N ≥ 1` slides it lies in `[0, N-1]`. -/
theorem starting_index (c : Container) (h0 : Nat) (w : World)
    (hinit : init ⟨some c⟩ h0 = Outcome.running w) :
    (∀ (i : Nat) (s : Element), c.slides[i]? = some s → contains s.classes "active" = true →
        (∀ (j : Nat) (t : Element), j < i → c.slides[j]? = some t →
          contains t.classes "active" = false) →
        w.index = JSNum.num (i : Int)) ∧
      ((∀ s ∈ c.slides, contains s.classes "active" = false) → w.index = JSNum.num 0) ∧
      (1 ≤ c.slides.length →
        ∃ z : Int, w.index = JSNum.num z ∧ 0 ≤ z ∧ z ≤ (c.slides.length : Int) - 1) := by
  have e := init_index c h0 w hinit
  refine ⟨?_, ?_, ?_⟩
  · intro i s hs ha hb
    rw [e]
    unfold startIndex findIndex
    rw [findIndexFrom_first 0 i c.slides s hs ha hb]
    have : ¬ ((0 + i : Nat) : Int) < 0 := by omega
    simp [JSNum.ltZero]
  · intro hnone
    rw [e]
    unfold startIndex findIndex
    rw [findIndexFrom_none 0 c.slides hnone]
    simp [JSNum.ltZero]
  · intro hn
    obtain ⟨z, hz, a, b⟩ := startIndex_range c.slides hn
    exact ⟨z, by rw [e, hz], a, by omega⟩

/-- C13 on `demoContainer`, whose second slide is the marked one, and on
`fiveContainer`, where none is. -/
theorem starting_index_witness :
    (init ⟨some demoContainer⟩ 0 = Outcome.running demoWorld ∧
        init ⟨some fiveContainer⟩ 0 = Outcome.running fiveWorld) ∧
      demoWorld.index = JSNum.num ((1 : Nat) : Int) ∧
      fiveWorld.index = JSNum.num 0 :=
  ⟨⟨by decide, by decide⟩,
    (starting_index demoContainer 0 demoWorld (by decide)).1 1 ⟨["slide", "active"]⟩
      (by decide) (by decide)
      (fun j t hj ht => by
        have hj0 : j = 0 := by omega
        subst hj0
        have ht0 : t = ⟨["slide"]⟩ := by
          simpa [demoContainer] using ht.symm
        subst ht0
        decide),
    (starting_index fiveContainer 0 fiveWorld (by decide)).2.1 (by decide)⟩

/-! ## A page without container -/

/-- C14: on a page without container the script returns at line 3: no error is
raised, no indicator is created, the page is left as it was and no timer is
scheduled. -/
theorem init_without_container (h0 : Nat) :
    init ⟨none⟩ h0 = Outcome.skipped ∧
      (init ⟨none⟩ h0).raised = false ∧
      (init ⟨none⟩ h0).created = [] ∧
      (init ⟨none⟩ h0).page ⟨none⟩ = ⟨none⟩ ∧
      (init ⟨none⟩ h0).timers = [] :=
  ⟨rfl, rfl, rfl, rfl, rfl⟩

/-! ## The indicators built at initialization -/

/-- The indicator at position `i` after a successful run of the script: the one
built for slide `i`, with the marker as the first `render` left it. -/
theorem init_dot (c : Container) (h0 : Nat) (w : World) (i : Nat)
    (h : init ⟨some c⟩ h0 = Outcome.running w) (hi : i < c.slides.length) :
    w.dots[i]? = some
      { mkDot (startIndex c.slides) i with
        classes := toggle (mkDot (startIndex c.slides) i).classes "active"
          (JSNum.strictEq i (startIndex c.slides)) } := by
  obtain ⟨c1, hc1, _, rfl⟩ := init_running _ h0 w h
  cases hc1
  rw [start_dots]
  simp only [render]
  rw [toggleDots_getElem?, buildDots_getElem?, if_pos hi]
  simp

/-- C15: initialization creates exactly one indicator per slide, in slide
order; the indicator at position `i` is a button labelled `Go to slide i+1`
whose click is the call `go(i, true)`, which leaves `index` at `i`. -/
theorem indicator_correspondence (c : Container) (h0 : Nat) (w : World)
    (hinit : init ⟨some c⟩ h0 = Outcome.running w) :
    (init ⟨some c⟩ h0).created = w.dots ∧
      w.dots.length = c.slides.length ∧
      w.slides.length = c.slides.length ∧
      ∀ i, i < c.slides.length →
        ∃ d, w.dots[i]? = some d ∧
          d.ariaLabel = "Go to slide " ++ toString (i + 1) ∧
          d.type = "button" ∧
          d.target = i ∧
          step w (Event.dotClick i) = go (JSNum.num (i : Int)) true w ∧
          (step w (Event.dotClick i)).index = JSNum.num (i : Int) := by
  obtain ⟨hsl, hdl, _⟩ := shape_init ⟨some c⟩ h0 w c rfl hinit
  refine ⟨by rw [hinit]; rfl, hdl, hsl, ?_⟩
  intro i hi
  have hd := init_dot c h0 w i hinit hi
  refine ⟨_, hd, rfl, rfl, rfl, ?_⟩
  have e : step w (Event.dotClick i) = go (JSNum.num (i : Int)) true w := by
    simp only [step, hd, mkDot]
  rw [e]
  refine ⟨rfl, ?_⟩
  rw [go_index, hsl, rem_wrap _ _ (by omega) (by omega)]
  congr 1
  exact Int.emod_eq_of_lt (by omega) (by omega)

/-- C15 on `demoContainer`: four indicators, the third one labelled
`Go to slide 3` and navigating to position `2`. -/
theorem indicator_correspondence_witness :
    init ⟨some demoContainer⟩ 0 = Outcome.running demoWorld ∧
      demoWorld.dots.length = demoContainer.slides.length ∧
      (∃ d, demoWorld.dots[2]? = some d ∧
        d.ariaLabel = "Go to slide " ++ toString (2 + 1) ∧
        d.type = "button" ∧
        d.target = 2 ∧
        step demoWorld (Event.dotClick 2) = go (JSNum.num ((2 : Nat) : Int)) true demoWorld ∧
        (step demoWorld (Event.dotClick 2)).index = JSNum.num ((2 : Nat) : Int)) :=
  ⟨by decide, (indicator_correspondence demoContainer 0 demoWorld (by decide)).2.1,
    (indicator_correspondence demoContainer 0 demoWorld (by decide)).2.2.2 2 (by decide)⟩

/-! ## The guard of `start` -/

/-- C16: in every state in which `timer` holds a handle, `start` returns the
state as it is: the same handle, the same timer table and the same time
remaining on every scheduled timer. -/
theorem start_guard (w : World) (ht : truthy w.timer = true) :
    start w = w ∧ (start w).timer = w.timer ∧ (start w).scheduled = w.scheduled ∧
      (start w).lastHandle = w.lastHandle := by
  have e : start w = w := by
    unfold start
    rw [if_pos ht]
  rw [e]
  exact ⟨rfl, rfl, rfl, rfl⟩

/-- C16 on `demoContainer`, 1200 ms into the first interval: `start` leaves the
2300 ms that remain. -/
theorem start_guard_witness :
    truthy (run demoWorld [Event.elapse 1200]).timer = true ∧
      (run demoWorld [Event.elapse 1200]).scheduled = [⟨1, 2300⟩] ∧
      (start (run demoWorld [Event.elapse 1200])).scheduled
        = (run demoWorld [Event.elapse 1200]).scheduled :=
  ⟨by decide, by decide, (start_guard (run demoWorld [Event.elapse 1200]) (by decide)).2.2.1⟩

/-! ## `next` and `prev` undo each other -/

theorem next_index (w : World) (z : Int) (u : Bool) (hz : w.index = JSNum.num z)
    (hn : 1 ≤ w.slides.length) (h : -(w.slides.length : Int) ≤ z + 1) :
    (next u w).index = JSNum.num ((z + 1) % (w.slides.length : Int)) := by
  unfold next
  rw [hz, JSNum.add, go_index, rem_wrap _ _ hn h]

theorem prev_index (w : World) (z : Int) (u : Bool) (hz : w.index = JSNum.num z)
    (hn : 1 ≤ w.slides.length) (h : -(w.slides.length : Int) ≤ z - 1) :
    (prev u w).index = JSNum.num ((z - 1) % (w.slides.length : Int)) := by
  unfold prev
  rw [hz, JSNum.sub, go_index, rem_wrap _ _ hn h]

theorem next_slides_length (u : Bool) (w : World) :
    (next u w).slides.length = w.slides.length := go_slides_length _ _ _

theorem prev_slides_length (u : Bool) (w : World) :
    (prev u w).slides.length = w.slides.length := go_slides_length _ _ _

/-- C17: for `N ≥ 1` slides and `index = i` in `[0, N-1]`, `prev` after `next`
and `next` after `prev` both leave `index` at `i`, at either end and for
`N = 1` as well, whatever the `userAction` flags. -/
theorem next_prev_inverse (w : World) (i : Nat) (u v : Bool)
    (hi : w.index = JSNum.num (i : Int)) (hlt : i < w.slides.length) :
    (prev v (next u w)).index = JSNum.num (i : Int) ∧
      (next v (prev u w)).index = JSNum.num (i : Int) := by
  have hn : 1 ≤ w.slides.length := by omega
  have hpos : (0 : Int) < (w.slides.length : Int) := by omega
  constructor
  · have h1 := next_index w i u hi hn (by omega)
    have a0 := Int.emod_nonneg ((i : Int) + 1) (Int.ne_of_gt hpos)
    have a1 := Int.emod_lt_of_pos ((i : Int) + 1) hpos
    have h2 := prev_index (next u w) _ v h1 (by rw [next_slides_length]; exact hn)
      (by rw [next_slides_length]; omega)
    rw [h2, next_slides_length]
    congr 1
    rw [Int.sub_emod, Int.emod_emod_of_dvd _ (Int.dvd_refl _), ← Int.sub_emod]
    have e : (i : Int) + 1 - 1 = i := by omega
    rw [e]
    exact Int.emod_eq_of_lt (by omega) (by omega)
  · have h1 := prev_index w i u hi hn (by omega)
    have a0 := Int.emod_nonneg ((i : Int) - 1) (Int.ne_of_gt hpos)
    have a1 := Int.emod_lt_of_pos ((i : Int) - 1) hpos
    have h2 := next_index (prev u w) _ v h1 (by rw [prev_slides_length]; exact hn)
      (by rw [prev_slides_length]; omega)
    rw [h2, prev_slides_length]
    congr 1
    rw [Int.add_emod, Int.emod_emod_of_dvd _ (Int.dvd_refl _), ← Int.add_emod]
    have e : (i : Int) - 1 + 1 = i := by omega
    rw [e]
    exact Int.emod_eq_of_lt (by omega) (by omega)

/-- C17 at both ends of `fiveWorld` and on a single slide. -/
theorem next_prev_inverse_witness :
    (fiveWorld.index = JSNum.num ((0 : Nat) : Int) ∧ 0 < fiveWorld.slides.length) ∧
      ((prev true (next false fiveWorld)).index = JSNum.num ((0 : Nat) : Int) ∧
        (next true (prev false fiveWorld)).index = JSNum.num ((0 : Nat) : Int)) ∧
      (prev false fiveWorld).index = JSNum.num 4 :=
  ⟨⟨by decide, by decide⟩, next_prev_inverse fiveWorld 0 false true (by decide) (by decide),
    by decide⟩

/-! ## What navigation leaves alone -/

theorem unmark_toggle (cl : List String) (f : Bool) :
    unmark (toggle cl "active" f) = unmark cl := by
  cases f
  · simp [unmark, toggle, List.filter_filter]
  · by_cases h : "active" ∈ cl <;> simp [unmark, toggle, contains, h]

theorem slideFrame_toggleSlides (x : JSNum) (i : Nat) (l : List Element) :
    slideFrame (toggleSlides x i l) = slideFrame l := by
  induction l generalizing i with
  | nil => rfl
  | cons s rest ih =>
    have := ih (i + 1)
    simp only [slideFrame] at this
    simp [slideFrame, toggleSlides, unmark_toggle, this]

theorem dotFrame_toggleDots (x : JSNum) (i : Nat) (l : List Dot) :
    dotFrame (toggleDots x i l) = dotFrame l := by
  induction l generalizing i with
  | nil => rfl
  | cons s rest ih =>
    have := ih (i + 1)
    simp only [dotFrame] at this
    simp [dotFrame, toggleDots, unmark_toggle, this]

theorem render_frame (w : World) :
    slideFrame (render w).slides = slideFrame w.slides ∧
      dotFrame (render w).dots = dotFrame w.dots :=
  ⟨slideFrame_toggleSlides _ _ _, dotFrame_toggleDots _ _ _⟩

theorem go_frame (x : JSNum) (u : Bool) (w : World) :
    slideFrame (go x u w).slides = slideFrame w.slides ∧
      dotFrame (go x u w).dots = dotFrame w.dots ∧
      (go x u w).slides.length = w.slides.length ∧
      (go x u w).dots.length = w.dots.length := by
  refine ⟨?_, ?_, go_slides_length x u w, go_dots_length x u w⟩
  · rw [go_slides]; exact slideFrame_toggleSlides _ _ _
  · rw [go_dots]; exact dotFrame_toggleDots _ _ _

theorem fire_handles (h : Nat) (w : World) :
    (fire h w).timer = w.timer ∧
      (fire h w).scheduled.map Timer.handle = w.scheduled.map Timer.handle := by
  unfold fire
  split
  · have htm : (next false w).timer = w.timer := (go_auto_timer _ w).1
    refine ⟨htm, ?_⟩
    have hsch : (next false w).scheduled = w.scheduled := (go_auto_timer _ w).2.1
    simp only [hsch, List.map_map]
    apply List.map_congr_left
    intro t _
    simp only [Function.comp]
    split <;> rfl
  · exact ⟨rfl, rfl⟩

/-- C18: `go(k, false)`, and with it `next(false)` and `prev(false)`, changes
nothing but `index` and the `active` markers: `timer`, the timer table, the
handle counter and the bound buttons are as before, and a firing of the timer
leaves the same handles scheduled.  No `go`, `next`, `prev` or `render`,
whatever its flag, changes the number or the order of the slides and
indicators, nor any class, label or listener target other than the marker. -/
theorem non_user_navigation_frame (x : JSNum) (u : Bool) (w : World) :
    (∀ v ∈ [go x false w, next false w, prev false w],
        v.timer = w.timer ∧ v.scheduled = w.scheduled ∧ v.lastHandle = w.lastHandle ∧
        v.hasPrev = w.hasPrev ∧ v.hasNext = w.hasNext) ∧
      (∀ h, (fire h w).timer = w.timer ∧
        (fire h w).scheduled.map Timer.handle = w.scheduled.map Timer.handle) ∧
      (∀ v ∈ [go x u w, next u w, prev u w, render w],
        v.slides.length = w.slides.length ∧ v.dots.length = w.dots.length ∧
        slideFrame v.slides = slideFrame w.slides ∧ dotFrame v.dots = dotFrame w.dots) := by
  have key : ∀ y : JSNum, (go y false w).timer = w.timer ∧ (go y false w).scheduled = w.scheduled ∧
      (go y false w).lastHandle = w.lastHandle ∧
      (go y false w).hasPrev = w.hasPrev ∧ (go y false w).hasNext = w.hasNext := fun y =>
    ⟨(go_auto_timer y w).1, (go_auto_timer y w).2.1, (go_auto_timer y w).2.2,
      go_hasPrev y false w, go_hasNext y false w⟩
  have fr : ∀ y : JSNum, (go y u w).slides.length = w.slides.length ∧
      (go y u w).dots.length = w.dots.length ∧
      slideFrame (go y u w).slides = slideFrame w.slides ∧
      dotFrame (go y u w).dots = dotFrame w.dots := fun y =>
    ⟨(go_frame y u w).2.2.1, (go_frame y u w).2.2.2, (go_frame y u w).1, (go_frame y u w).2.1⟩
  refine ⟨?_, fun h => fire_handles h w, ?_⟩
  · intro v hv
    simp only [List.mem_cons, List.mem_singleton, List.not_mem_nil, or_false] at hv
    rcases hv with rfl | rfl | rfl
    · exact key _
    · exact key _
    · exact key _
  · intro v hv
    simp only [List.mem_cons, List.mem_singleton, List.not_mem_nil, or_false] at hv
    rcases hv with rfl | rfl | rfl | rfl
    · exact fr _
    · exact fr _
    · exact fr _
    · exact ⟨render_slides_length w, render_dots_length w, (render_frame w).1, (render_frame w).2⟩

end Slider
